import Mathlib

/-!
Verification development for the xot in-memory XML tree library.

The development shallowly embeds the tree-and-identity core of the library:

* the arena node-graph layer (the `indextree` dependency: parent /
  first-child / last-child / sibling links, liveness flag, and the
  `detach`, `append`, `insert_after`, `insert_before`, `remove`,
  `remove_subtree` primitives, with the `checked_*` variants validating
  before mutating);
* the structural mutation engine of `src/xmldata.rs`;
* the namespace resolution walks of `src/document.rs`;
* the contextual name accessor of `src/xmlname/reference.rs`, and the
  interning tables.

Machine integers do not occur; ids and handles are modelled as `Nat`.
The arena is total: out-of-range slot access, which panics in the Rust
source, is totalized to a default slot that carries the `removed` flag.
-/

set_option autoImplicit false
set_option linter.unusedTactic false
set_option linter.unnecessarySeqFocus false

namespace Xot

/-- Handle of an arena slot (`XmlNode` wrapping an `indextree::NodeId`). -/
abbrev NodeId := Nat

/-- Interned namespace URI identifier (`NamespaceId`). -/
abbrev NamespaceId := Nat

/-- Interned prefix identifier (`PrefixId`). -/
abbrev PrefixId := Nat

/-- Interned name identifier (`NameId`); identifies a pair of a local
name string and a `NamespaceId`. -/
abbrev NameId := Nat

/-- Per-element namespace declarations: the bidirectional pair of maps
namespace→prefix and prefix→namespace, modelled as association lists.
The source fields are `namespace_info.to_prefix` and
`namespace_info.to_namespace`; the first is renamed `toPrefixMap` here. -/
structure NamespaceInfo where
  toPrefixMap : List (NamespaceId × PrefixId)
  toNamespaceMap : List (PrefixId × NamespaceId)
  deriving Repr, DecidableEq

/-- Element payload: interned name plus the declarations made at this
element (`xmlvalue::Element`). -/
structure Element where
  name_id : NameId
  namespace_info : NamespaceInfo
  deriving Repr, DecidableEq

/-- Tagged node value (`xmlvalue::XmlValue`). -/
inductive XmlValue where
  | root
  | element (e : Element)
  | text (content : String)
  | comment (content : String)
  | processingInstruction (target : String) (data : Option String)
  deriving Repr, DecidableEq

/-- Value type tag (`xmlvalue::ValueType`). -/
inductive ValueType where
  | root
  | element
  | text
  | comment
  | processingInstruction
  deriving Repr, DecidableEq

/-- The `value_type` of a value. -/
def XmlValue.valueType : XmlValue → ValueType
  | .root => .root
  | .element _ => .element
  | .text _ => .text
  | .comment _ => .comment
  | .processingInstruction _ _ => .processingInstruction

/-- One arena slot: the node's value, its graph links and liveness flag
(`indextree::Node`). -/
structure NodeData where
  value : XmlValue
  parent : Option NodeId
  firstChild : Option NodeId
  lastChild : Option NodeId
  prevSibling : Option NodeId
  nextSibling : Option NodeId
  removed : Bool
  deriving Repr, DecidableEq

/-- The slot returned for an out-of-range handle.  The Rust source
panics there; the model hands back a removed root-valued slot instead,
which no claim relies on. -/
def defaultNodeData : NodeData :=
  { value := .root, parent := none, firstChild := none, lastChild := none,
    prevSibling := none, nextSibling := none, removed := true }

/-- The arena of nodes (`indextree::Arena`): a slot count plus the slot
contents, as a total function so that updates need no bounds reasoning. -/
structure Arena where
  size : Nat
  nodes : Nat → NodeData

/-- The empty arena. -/
def Arena.empty : Arena := ⟨0, fun _ => defaultNodeData⟩

/-- Read a slot. -/
def Arena.get (a : Arena) (i : NodeId) : NodeData := a.nodes i

/-- Overwrite a slot. -/
def Arena.set (a : Arena) (i : NodeId) (d : NodeData) : Arena :=
  ⟨a.size, fun j => if j = i then d else a.nodes j⟩

/-- Update a slot in place. -/
def Arena.modify (a : Arena) (i : NodeId) (f : NodeData → NodeData) : Arena :=
  a.set i (f (a.get i))

/-- Allocate a fresh unattached, live node (`Arena::new_node`). -/
def Arena.newNode (a : Arena) (v : XmlValue) : NodeId × Arena :=
  (a.size, ⟨a.size + 1, fun j =>
    if j = a.size then
      { value := v, parent := none, firstChild := none, lastChild := none,
        prevSibling := none, nextSibling := none, removed := false }
    else a.nodes j⟩)

@[simp] theorem Arena.get_set_eq (a : Arena) (i : NodeId) (d : NodeData) :
    (a.set i d).get i = d := by
  simp [Arena.get, Arena.set]

theorem Arena.get_set_ne (a : Arena) {i j : NodeId} (d : NodeData) (h : j ≠ i) :
    (a.set i d).get j = a.get j := by
  simp [Arena.get, Arena.set, h]

theorem Arena.size_set (a : Arena) (i : NodeId) (d : NodeData) :
    (a.set i d).size = a.size := rfl

/-- First-some of two options (`Option::or` in Rust). -/
def optOr {α : Type} : Option α → Option α → Option α
  | some x, _ => some x
  | none, y => y

/-! The `indextree` structural primitives used by the library, modelled
from that dependency's documented contract (it is an external crate, not
part of this repository's sources). -/

/-- Validation errors of the `indextree` checked operations
(`indextree::NodeError`). -/
inductive NodeError where
  | appendSelf
  | prependSelf
  | insertBeforeSelf
  | insertAfterSelf
  | removed
  deriving Repr, DecidableEq

/-- `NodeId::detach`: separate the node from its parent and siblings,
keeping its own children attached. -/
def detachNode (a : Arena) (n : NodeId) : Arena :=
  let nd := a.get n
  let a1 :=
    match nd.prevSibling with
    | some p => a.modify p (fun d => { d with nextSibling := nd.nextSibling })
    | none =>
      match nd.parent with
      | some par => a.modify par (fun d => { d with firstChild := nd.nextSibling })
      | none => a
  let a2 :=
    match nd.nextSibling with
    | some nx => a1.modify nx (fun d => { d with prevSibling := nd.prevSibling })
    | none =>
      match nd.parent with
      | some par => a1.modify par (fun d => { d with lastChild := nd.prevSibling })
      | none => a1
  a2.modify n (fun d => { d with parent := none, prevSibling := none, nextSibling := none })

/-- `NodeId::append`: detach `child`, then link it as the last child of
`parent`. -/
def appendNode (a : Arena) (parent child : NodeId) : Arena :=
  let a := detachNode a child
  match (a.get parent).lastChild with
  | some l =>
    let a := a.modify l (fun d => { d with nextSibling := some child })
    let a := a.modify parent (fun d => { d with lastChild := some child })
    a.modify child (fun d => { d with parent := some parent, prevSibling := some l })
  | none =>
    let a := a.modify parent (fun d => { d with firstChild := some child, lastChild := some child })
    a.modify child (fun d => { d with parent := some parent })

/-- `NodeId::prepend`: detach `child`, then link it as the first child
of `parent`. -/
def prependNode (a : Arena) (parent child : NodeId) : Arena :=
  let a := detachNode a child
  match (a.get parent).firstChild with
  | some f =>
    let a := a.modify f (fun d => { d with prevSibling := some child })
    let a := a.modify parent (fun d => { d with firstChild := some child })
    a.modify child (fun d => { d with parent := some parent, nextSibling := some f })
  | none =>
    let a := a.modify parent (fun d => { d with firstChild := some child, lastChild := some child })
    a.modify child (fun d => { d with parent := some parent })

/-- `NodeId::insert_after`: detach `newS`, then link it directly after
`ref` among its siblings. -/
def insertAfterNode (a : Arena) (ref newS : NodeId) : Arena :=
  let a := detachNode a newS
  let rd := a.get ref
  let a1 :=
    match rd.nextSibling with
    | some nx => a.modify nx (fun d => { d with prevSibling := some newS })
    | none =>
      match rd.parent with
      | some par => a.modify par (fun d => { d with lastChild := some newS })
      | none => a
  let a2 := a1.modify ref (fun d => { d with nextSibling := some newS })
  a2.modify newS (fun d =>
    { d with parent := rd.parent, prevSibling := some ref, nextSibling := rd.nextSibling })

/-- `NodeId::insert_before`: detach `newS`, then link it directly before
`ref` among its siblings. -/
def insertBeforeNode (a : Arena) (ref newS : NodeId) : Arena :=
  let a := detachNode a newS
  let rd := a.get ref
  let a1 :=
    match rd.prevSibling with
    | some p => a.modify p (fun d => { d with nextSibling := some newS })
    | none =>
      match rd.parent with
      | some par => a.modify par (fun d => { d with firstChild := some newS })
      | none => a
  let a2 := a1.modify ref (fun d => { d with prevSibling := some newS })
  a2.modify newS (fun d =>
    { d with parent := rd.parent, nextSibling := some ref, prevSibling := rd.prevSibling })

/-- Helper for `removeNode`: walk a sibling chain, re-setting each
node's parent (the child-reparenting loop inside `NodeId::remove`).
Fuel-bounded so the function is total on arbitrary link graphs. -/
def reparentChain (a : Arena) : Nat → Option NodeId → Option NodeId → Arena
  | 0, _, _ => a
  | _, none, _ => a
  | fuel + 1, some m, par =>
    let nxt := (a.get m).nextSibling
    reparentChain (a.modify m (fun d => { d with parent := par })) fuel nxt par

/-- `NodeId::remove`: remove a single node, splicing its children into
its place among its siblings, and mark the slot removed. -/
def removeNode (a : Arena) (n : NodeId) : Arena :=
  let nd := a.get n
  let a1 :=
    match nd.firstChild with
    | some fc => a.modify fc (fun d => { d with prevSibling := nd.prevSibling })
    | none => a
  let a2 :=
    match nd.lastChild with
    | some lc => a1.modify lc (fun d => { d with nextSibling := nd.nextSibling })
    | none => a1
  let a3 :=
    match nd.prevSibling with
    | some p => a2.modify p (fun d => { d with nextSibling := optOr nd.firstChild nd.nextSibling })
    | none =>
      match nd.parent with
      | some par => a2.modify par (fun d => { d with firstChild := optOr nd.firstChild nd.nextSibling })
      | none => a2
  let a4 :=
    match nd.nextSibling with
    | some nx => a3.modify nx (fun d => { d with prevSibling := optOr nd.lastChild nd.prevSibling })
    | none =>
      match nd.parent with
      | some par => a3.modify par (fun d => { d with lastChild := optOr nd.lastChild nd.prevSibling })
      | none => a3
  let a5 := reparentChain a4 (2 * a4.size + 1) nd.firstChild nd.parent
  a5.set n
    { value := nd.value, parent := none, firstChild := none, lastChild := none,
      prevSibling := none, nextSibling := none, removed := true }

/-- Pre-order walk engine: emit the node under the cursor, descend into
its first child, and keep the pending next-siblings on a stack.  Reads
the arena only at emitted nodes.  Fuel-bounded. -/
def walk (a : Arena) : Nat → Option NodeId → List (Option NodeId) → List NodeId
  | 0, _, _ => []
  | _ + 1, none, [] => []
  | fuel + 1, none, s :: stack => walk a fuel s stack
  | fuel + 1, some m, stack =>
    m :: walk a fuel (a.get m).firstChild ((a.get m).nextSibling :: stack)

/-- Standard fuel bound for arena walks. -/
def Arena.fuel (a : Arena) : Nat := 2 * a.size + 2

/-- The strict descendants of `n`, in pre-order. -/
def strictDescend (a : Arena) (n : NodeId) : List NodeId :=
  walk a a.fuel (a.get n).firstChild []

/-- The ids of `n` and all its descendants, in pre-order
(`NodeId::descendants`, which includes the start node itself). -/
def descend (a : Arena) (n : NodeId) : List NodeId :=
  n :: strictDescend a n

/-- Mark every listed slot removed. -/
def markRemoved (a : Arena) (ds : List NodeId) : Arena :=
  ds.foldl (fun acc m => acc.modify m (fun d => { d with removed := true })) a

/-- `NodeId::remove_subtree`: detach the node, then mark it and every
descendant slot removed. -/
def removeSubtree (a : Arena) (n : NodeId) : Arena :=
  let a := detachNode a n
  markRemoved a (descend a n)

/-- The ancestor chain of a node, starting at the node itself
(`NodeId::ancestors`).  Fuel-bounded parent walk. -/
def ancestorsAux (a : Arena) : Nat → Option NodeId → List NodeId
  | 0, _ => []
  | _ + 1, none => []
  | fuel + 1, some m => m :: ancestorsAux a fuel (a.get m).parent

/-- Ancestors of `n`, the node itself first. -/
def ancestors (a : Arena) (n : NodeId) : List NodeId :=
  ancestorsAux a a.fuel (some n)

/-- `NodeId::checked_append`: validate, then `append`. -/
def checkedAppend (a : Arena) (parent child : NodeId) : Except NodeError Arena :=
  if child = parent then .error .appendSelf
  else if (a.get parent).removed || (a.get child).removed then .error .removed
  else .ok (appendNode a parent child)

/-- `NodeId::checked_prepend`: validate, then `prepend`. -/
def checkedPrepend (a : Arena) (parent child : NodeId) : Except NodeError Arena :=
  if child = parent then .error .prependSelf
  else if (a.get parent).removed || (a.get child).removed then .error .removed
  else .ok (prependNode a parent child)

/-- `NodeId::checked_insert_after`: validate, then `insert_after`. -/
def checkedInsertAfter (a : Arena) (ref newS : NodeId) : Except NodeError Arena :=
  if newS = ref then .error .insertAfterSelf
  else if (a.get ref).removed || (a.get newS).removed then .error .removed
  else .ok (insertAfterNode a ref newS)

/-- `NodeId::checked_insert_before`: validate, then `insert_before`. -/
def checkedInsertBefore (a : Arena) (ref newS : NodeId) : Except NodeError Arena :=
  if newS = ref then .error .insertBeforeSelf
  else if (a.get ref).removed || (a.get newS).removed then .error .removed
  else .ok (insertBeforeNode a ref newS)

/-! The structural mutation engine of `src/xmldata.rs`.  The `XmlData`
methods below only touch the arena component of `XmlData`, so they are
defined directly over `Arena`. -/

/-- The library error type (`error::Error`), restricted to the variants
the embedded core can produce. -/
inductive Error where
  | invalidOperation (msg : String)
  | nodeError (e : NodeError)
  | missingPrefix (namespace_id : NamespaceId)
  | unknownPrefix (s : String)
  deriving Repr, DecidableEq

/-- `XmlData::xml_value`. -/
def xmlValue (a : Arena) (n : NodeId) : XmlValue := (a.get n).value

/-- `XmlData::value_type`. -/
def valueType (a : Arena) (n : NodeId) : ValueType := (xmlValue a n).valueType

/-- `XmlData::parent`. -/
def parent (a : Arena) (n : NodeId) : Option NodeId := (a.get n).parent

/-- `XmlData::first_child`. -/
def firstChild (a : Arena) (n : NodeId) : Option NodeId := (a.get n).firstChild

/-- `XmlData::last_child`. -/
def lastChild (a : Arena) (n : NodeId) : Option NodeId := (a.get n).lastChild

/-- `XmlData::next_sibling`. -/
def nextSibling (a : Arena) (n : NodeId) : Option NodeId := (a.get n).nextSibling

/-- `XmlData::previous_sibling`. -/
def previousSibling (a : Arena) (n : NodeId) : Option NodeId := (a.get n).prevSibling

/-- `XmlData::is_removed`. -/
def isRemoved (a : Arena) (n : NodeId) : Bool := (a.get n).removed

/-- `XmlData::is_root`. -/
def isRoot (a : Arena) (n : NodeId) : Bool := valueType a n = ValueType.root

/-- `XmlData::is_text`. -/
def isText (a : Arena) (n : NodeId) : Bool := valueType a n = ValueType.text

/-- `XmlData::is_under_root`. -/
def isUnderRoot (a : Arena) (n : NodeId) : Bool :=
  match parent a n with
  | some parent_id => valueType a parent_id = ValueType.root
  | none => false

/-- `XmlData::text`: the text content of a node, when it is a text node. -/
def text (a : Arena) (n : NodeId) : Option String :=
  match xmlValue a n with
  | .text t => some t
  | _ => none

/-- `XmlData::add_structure_check`. -/
def addStructureCheck (a : Arena) (parent? : Option NodeId) (child : NodeId) :
    Except Error Unit := do
  match parent? with
  | none => throw (.invalidOperation "Cannot create siblings for document root")
  | some parent_id =>
    match valueType a child with
    | .root => throw (.invalidOperation "Cannot move document root")
    | .element =>
      if isUnderRoot a child then
        throw (.invalidOperation "Cannot move root element")
      else if isRoot a parent_id then
        throw (.invalidOperation "Cannot move extra element under document root")
      else return ()
    | .text =>
      if isRoot a parent_id then
        throw (.invalidOperation "Cannot move text under document root")
      else return ()
    | .processingInstruction => return ()
    | .comment => return ()

/-- `XmlData::remove_structure_check`. -/
def removeStructureCheck (a : Arena) (node : NodeId) : Except Error Unit :=
  match valueType a node with
  | .root => throw (.invalidOperation "Cannot remove document root")
  | .element =>
    if isUnderRoot a node then
      throw (.invalidOperation "Cannot remove root element")
    else pure ()
  | _ => pure ()

/-- `XmlData::add_consolidate_text_nodes`: try to merge the text node
about to be inserted into the neighbouring text node.  Mirrors the
source's control flow exactly: `next_node` is consulted only when
`prev_node` is `None`. -/
def addConsolidateTextNodes (a : Arena) (node : NodeId)
    (prev_node next_node : Option NodeId) : Bool × Arena :=
  match xmlValue a node with
  | .text added_text =>
    match prev_node with
    | some prev_id =>
      match xmlValue a prev_id with
      | .text prev_text =>
        let a := a.modify prev_id (fun d => { d with value := .text (prev_text ++ added_text) })
        (true, removeNode a node)
      | _ => (false, a)
    | none =>
      match next_node with
      | some next_id =>
        match xmlValue a next_id with
        | .text next_text =>
          let a := a.modify next_id (fun d => { d with value := .text (added_text ++ next_text) })
          (true, removeNode a node)
        | _ => (false, a)
      | none => (false, a)
  | _ => (false, a)

/-- `XmlData::remove_consolidate_text_nodes`: after an unlinking, merge
the formerly surrounding siblings when both are text nodes. -/
def removeConsolidateTextNodes (a : Arena)
    (prev_node next_node : Option NodeId) : Bool × Arena :=
  match prev_node with
  | none => (false, a)
  | some prev_id =>
    match next_node with
    | none => (false, a)
    | some next_id =>
      match text a prev_id, text a next_id with
      | some prev_text, some next_text =>
        let a := a.modify prev_id (fun d => { d with value := .text (prev_text ++ next_text) })
        (true, removeNode a next_id)
      | some _, none => (false, a)
      | none, _ => (false, a)

/-- `XmlData::append`. -/
def append (a : Arena) (parent_id child : NodeId) : Except Error Unit × Arena :=
  match addStructureCheck a (some parent_id) child with
  | .error e => (.error e, a)
  | .ok () =>
    match addConsolidateTextNodes a child (lastChild a parent_id) none with
    | (true, a') => (.ok (), a')
    | (false, a') =>
      match checkedAppend a' parent_id child with
      | .error e => (.error (.nodeError e), a')
      | .ok a'' => (.ok (), a'')

/-- `XmlData::prepend`. -/
def prepend (a : Arena) (parent_id child : NodeId) : Except Error Unit × Arena :=
  match addStructureCheck a (some parent_id) child with
  | .error e => (.error e, a)
  | .ok () =>
    match addConsolidateTextNodes a child none (firstChild a parent_id) with
    | (true, a') => (.ok (), a')
    | (false, a') =>
      match checkedPrepend a' parent_id child with
      | .error e => (.error (.nodeError e), a')
      | .ok a'' => (.ok (), a'')

/-- `XmlData::insert_after`. -/
def insertAfter (a : Arena) (reference_node new_sibling : NodeId) :
    Except Error Unit × Arena :=
  match addStructureCheck a (parent a reference_node) new_sibling with
  | .error e => (.error e, a)
  | .ok () =>
    match addConsolidateTextNodes a new_sibling (some reference_node)
        (nextSibling a reference_node) with
    | (true, a') => (.ok (), a')
    | (false, a') =>
      match checkedInsertAfter a' reference_node new_sibling with
      | .error e => (.error (.nodeError e), a')
      | .ok a'' => (.ok (), a'')

/-- `XmlData::insert_before`. -/
def insertBefore (a : Arena) (reference_node new_sibling : NodeId) :
    Except Error Unit × Arena :=
  match addStructureCheck a (parent a reference_node) new_sibling with
  | .error e => (.error e, a)
  | .ok () =>
    match addConsolidateTextNodes a new_sibling
        (previousSibling a reference_node) (some reference_node) with
    | (true, a') => (.ok (), a')
    | (false, a') =>
      match checkedInsertBefore a' reference_node new_sibling with
      | .error e => (.error (.nodeError e), a')
      | .ok a'' => (.ok (), a'')

/-- `XmlData::detach`. -/
def detach (a : Arena) (node : NodeId) : Except Error Unit × Arena :=
  match removeStructureCheck a node with
  | .error e => (.error e, a)
  | .ok () =>
    let prev_node := previousSibling a node
    let next_node := nextSibling a node
    let a := detachNode a node
    let (_, a) := removeConsolidateTextNodes a prev_node next_node
    (.ok (), a)

/-- `XmlData::remove`. -/
def remove (a : Arena) (node : NodeId) : Except Error Unit × Arena :=
  match removeStructureCheck a node with
  | .error e => (.error e, a)
  | .ok () =>
    let prev_node := previousSibling a node
    let next_node := nextSibling a node
    let a := removeSubtree a node
    let (_, a) := removeConsolidateTextNodes a prev_node next_node
    (.ok (), a)

/-- `XmlData::new_text`. -/
def newText (a : Arena) (t : String) : NodeId × Arena :=
  a.newNode (.text t)

/-- `XmlData::new_element`. -/
def newElement (a : Arena) (name_id : NameId) : NodeId × Arena :=
  a.newNode (.element ⟨name_id, ⟨[], []⟩⟩)

/-- `XmlData::new_comment`. -/
def newComment (a : Arena) (c : String) : NodeId × Arena :=
  a.newNode (.comment c)

/-- `XmlData::append_text`: create a text node and append it. -/
def appendText (a : Arena) (parent_id : NodeId) (t : String) :
    Except Error Unit × Arena :=
  let (text_node_id, a) := newText a t
  append a parent_id text_node_id

/-! Concrete trace for the text-adjacency invariant: an element (node 0)
with a comment child (node 1) followed by a text child "b" (node 2);
then text "a" (node 3) is inserted after the comment. -/

/-- Trace step: allocate the element, node 0. -/
def c1A1 : Arena := (newElement Arena.empty 0).2

/-- Trace step: allocate the comment, node 1. -/
def c1A2 : Arena := (newComment c1A1 "c").2

/-- Trace step: allocate the text node "b", node 2. -/
def c1A3 : Arena := (newText c1A2 "b").2

/-- Trace step: append the comment to the element. -/
def c1A4 : Arena := (append c1A3 0 1).2

/-- Trace step: append the text "b" to the element. -/
def c1A5 : Arena := (append c1A4 0 2).2

/-- Trace step: allocate the text node "a", node 3. -/
def c1A6 : Arena := (newText c1A5 "a").2

/-- Trace step: insert the text "a" after the comment. -/
def c1Final : Arena := (insertAfter c1A6 1 3).2

end Xot

namespace Xot

/-- C1.  The claim states that after every successful structural
mutation no two `Text` nodes are adjacent siblings.  The code violates
it: every operation of the trace above succeeds, yet in the final tree
the text node 3 ("a") and the text node 2 ("b") are adjacent siblings.
The cause is that `add_consolidate_text_nodes` consults `next_node`
only when `prev_node` is `None`, so `insert_after` on a non-text
reference node never merges with the reference's text next sibling —
contradicting the source's own comment that "two text nodes can never
be adjacent". -/
theorem c1_adjacent_text_after_insert_after :
    (append c1A3 0 1).1 = .ok () ∧
    (append c1A4 0 2).1 = .ok () ∧
    (insertAfter c1A6 1 3).1 = .ok () ∧
    isText c1Final 3 = true ∧
    nextSibling c1Final 3 = some 2 ∧
    isText c1Final 2 = true := by
  refine ⟨rfl, rfl, rfl, by decide, by decide, by decide⟩

/-- Helper: the attempted consolidation either reports a merge, or
answers `false` having not touched the arena. -/
theorem addConsolidateTextNodes_spec (a : Arena) (n : NodeId)
    (p q : Option NodeId) :
    (addConsolidateTextNodes a n p q).1 = true ∨
      addConsolidateTextNodes a n p q = (false, a) := by
  unfold addConsolidateTextNodes
  split
  · split
    · split
      · exact Or.inl rfl
      · exact Or.inr rfl
    · split
      · split
        · exact Or.inl rfl
        · exact Or.inr rfl
      · exact Or.inr rfl
  · exact Or.inr rfl

/-- Helper: when the attempted consolidation answers `false` it has not
touched the arena. -/
theorem addConsolidateTextNodes_false_eq (a : Arena) (n : NodeId)
    (p q : Option NodeId) (h : (addConsolidateTextNodes a n p q).1 = false) :
    (addConsolidateTextNodes a n p q).2 = a := by
  rcases addConsolidateTextNodes_spec a n p q with h1 | h1
  · rw [h1] at h; cases h
  · rw [h1]

/-- C2.  If any of the six structural mutation operations reports an
error, the tree is returned exactly as it was: all checks run before
any mutation. -/
theorem error_leaves_tree_unchanged (a : Arena) (x y : NodeId) (e : Error) :
    ((append a x y).1 = .error e → (append a x y).2 = a) ∧
    ((prepend a x y).1 = .error e → (prepend a x y).2 = a) ∧
    ((insertAfter a x y).1 = .error e → (insertAfter a x y).2 = a) ∧
    ((insertBefore a x y).1 = .error e → (insertBefore a x y).2 = a) ∧
    ((detach a x).1 = .error e → (detach a x).2 = a) ∧
    ((remove a x).1 = .error e → (remove a x).2 = a) := by
  refine ⟨?_, ?_, ?_, ?_, ?_, ?_⟩ <;> intro h
  · unfold append at *
    split at h
    · rfl
    · split at h
      · simp_all
      · next hcons =>
        have hfalse : (addConsolidateTextNodes a y (lastChild a x) none).1 = false := by
          rw [hcons]
        have := addConsolidateTextNodes_false_eq a y (lastChild a x) none hfalse
        rw [hcons] at this
        split at h <;> simp_all
  · unfold prepend at *
    split at h
    · rfl
    · split at h
      · simp_all
      · next hcons =>
        have hfalse : (addConsolidateTextNodes a y none (firstChild a x)).1 = false := by
          rw [hcons]
        have := addConsolidateTextNodes_false_eq a y none (firstChild a x) hfalse
        rw [hcons] at this
        split at h <;> simp_all
  · unfold insertAfter at *
    split at h
    · rfl
    · split at h
      · simp_all
      · next hcons =>
        have hfalse :
            (addConsolidateTextNodes a y (some x) (nextSibling a x)).1 = false := by
          rw [hcons]
        have := addConsolidateTextNodes_false_eq a y (some x) (nextSibling a x) hfalse
        rw [hcons] at this
        split at h <;> simp_all
  · unfold insertBefore at *
    split at h
    · rfl
    · split at h
      · simp_all
      · next hcons =>
        have hfalse :
            (addConsolidateTextNodes a y (previousSibling a x) (some x)).1 = false := by
          rw [hcons]
        have := addConsolidateTextNodes_false_eq a y (previousSibling a x) (some x) hfalse
        rw [hcons] at this
        split at h <;> simp_all
  · unfold detach at *
    split at h
    · rfl
    · simp_all
  · unfold remove at *
    split at h
    · rfl
    · simp_all

/-- C2 witness: appending a node to itself fails with an indextree
`AppendSelf` error and leaves the one-element arena untouched. -/
theorem error_leaves_tree_unchanged_witness :
    (append c1A1 0 0).1 = .error (.nodeError .appendSelf) ∧
    (append c1A1 0 0).2 = c1A1 :=
  ⟨rfl, (error_leaves_tree_unchanged c1A1 0 0 (.nodeError .appendSelf)).1 rfl⟩

/-- Helper: the structure check on an element child whose effective
parent is a root node always yields an invalid-operation error,
whatever the root's current children are. -/
theorem addStructureCheck_element_root_error (a : Arena) (p c : NodeId)
    (hc : valueType a c = ValueType.element)
    (hp : valueType a p = ValueType.root) :
    ∃ m, addStructureCheck a (some p) c = .error (.invalidOperation m) := by
  simp only [addStructureCheck, hc]
  by_cases h : isUnderRoot a c = true
  · refine ⟨"Cannot move root element", ?_⟩
    simp [h]
    rfl
  · refine ⟨"Cannot move extra element under document root", ?_⟩
    simp [h, isRoot, hp]
    rfl

/-- C10.  Inserting an element node whose effective parent is a root
node fails with an invalid-operation error in all four insertion
operations, for every arena state — the check never looks at the root's
existing children. -/
theorem element_under_root_always_fails (a : Arena) (p c r : NodeId)
    (hc : valueType a c = ValueType.element)
    (hp : valueType a p = ValueType.root) :
    (∃ m, (append a p c).1 = .error (.invalidOperation m)) ∧
    (∃ m, (prepend a p c).1 = .error (.invalidOperation m)) ∧
    (parent a r = some p →
      (∃ m, (insertAfter a r c).1 = .error (.invalidOperation m)) ∧
      (∃ m, (insertBefore a r c).1 = .error (.invalidOperation m))) := by
  obtain ⟨m, hm⟩ := addStructureCheck_element_root_error a p c hc hp
  refine ⟨⟨m, by simp [append, hm]⟩, ⟨m, by simp [prepend, hm]⟩, fun hr => ?_⟩
  exact ⟨⟨m, by simp [insertAfter, hr, hm]⟩, ⟨m, by simp [insertBefore, hr, hm]⟩⟩

/-- Witness arena for C10: a root node 0 whose only child is the
comment node 1 (so the root owns no element child), plus a fresh
element node 2. -/
def w10 : Arena :=
  let a := (Arena.empty.newNode .root).2
  let a := (newComment a "c").2
  let a := (append a 0 1).2
  (newElement a 9).2

/-- C10 witness: under a root with no element child, all four insertion
operations refuse the element. -/
theorem element_under_root_always_fails_witness :
    (∃ m, (append w10 0 2).1 = .error (.invalidOperation m)) ∧
    (∃ m, (prepend w10 0 2).1 = .error (.invalidOperation m)) ∧
    (∃ m, (insertAfter w10 1 2).1 = .error (.invalidOperation m)) ∧
    (∃ m, (insertBefore w10 1 2).1 = .error (.invalidOperation m)) := by
  have h := element_under_root_always_fails w10 0 2 1 (by decide) (by decide)
  exact ⟨h.1, h.2.1, (h.2.2 (by decide)).1, (h.2.2 (by decide)).2⟩

/-- Helper: the reparenting loop does nothing on an empty chain. -/
theorem reparentChain_none (a : Arena) (fuel : Nat) (par : Option NodeId) :
    reparentChain a fuel none par = a := by
  cases fuel <;> rfl

/-- Helper: removing a completely unlinked, childless node only marks
its own slot removed. -/
theorem removeNode_unlinked (a : Arena) (t : NodeId)
    (h1 : (a.get t).parent = none) (h2 : (a.get t).prevSibling = none)
    (h3 : (a.get t).nextSibling = none) (h4 : (a.get t).firstChild = none)
    (h5 : (a.get t).lastChild = none) :
    removeNode a t = a.set t
      { value := (a.get t).value, parent := none, firstChild := none,
        lastChild := none, prevSibling := none, nextSibling := none,
        removed := true } := by
  unfold removeNode
  simp only [h1, h2, h3, h4, h5, reparentChain_none]

/-- C5.  Appending a text node `t` with content `bs` under a non-root
parent whose last child `lc` is a text node with content `as` succeeds
by consolidation: `lc`'s content becomes `as ++ bs`, `t`'s slot is
removed and stays unlinked, and every other slot — in particular every
link of every node other than `t` — is unchanged, so the parent keeps
the same children in the same order. -/
theorem append_text_consolidates (a : Arena) (p t lc : NodeId) (bs as : String)
    (ht : xmlValue a t = .text bs)
    (hlc : lastChild a p = some lc)
    (hlct : xmlValue a lc = .text as)
    (hproot : valueType a p ≠ ValueType.root)
    (hne : t ≠ lc)
    (htp : (a.get t).parent = none)
    (htprev : (a.get t).prevSibling = none)
    (htnext : (a.get t).nextSibling = none)
    (htfc : (a.get t).firstChild = none)
    (htlc2 : (a.get t).lastChild = none) :
    (append a p t).1 = .ok () ∧
    xmlValue (append a p t).2 lc = .text (as ++ bs) ∧
    isRemoved (append a p t).2 t = true ∧
    parent (append a p t).2 t = none ∧
    lastChild (append a p t).2 p = lastChild a p ∧
    (∀ m, m ≠ t →
      ((append a p t).2.get m).parent = (a.get m).parent ∧
      ((append a p t).2.get m).firstChild = (a.get m).firstChild ∧
      ((append a p t).2.get m).lastChild = (a.get m).lastChild ∧
      ((append a p t).2.get m).prevSibling = (a.get m).prevSibling ∧
      ((append a p t).2.get m).nextSibling = (a.get m).nextSibling ∧
      ((append a p t).2.get m).removed = (a.get m).removed ∧
      (m ≠ lc → ((append a p t).2.get m).value = (a.get m).value)) := by
  have hvt : valueType a t = ValueType.text := by
    simp [valueType, ht, XmlValue.valueType]
  have hriso : isRoot a p = false := by
    simp [isRoot]
    exact hproot
  have hcheck : addStructureCheck a (some p) t = .ok () := by
    simp [addStructureCheck, hvt, hriso]
    rfl
  have ha1t : ∀ d, ((a.set lc d).get t) = a.get t :=
    fun d => Arena.get_set_ne a d hne
  have hcons : addConsolidateTextNodes a t (lastChild a p) none =
      (true,
        (a.modify lc (fun d => { d with value := .text (as ++ bs) })).set t
          { value := (a.get t).value, parent := none, firstChild := none,
            lastChild := none, prevSibling := none, nextSibling := none,
            removed := true }) := by
    rw [hlc]
    simp only [addConsolidateTextNodes, ht, hlct]
    rw [removeNode_unlinked]
    · rw [Arena.modify, ha1t]
    · rw [Arena.modify, ha1t, htp]
    · rw [Arena.modify, ha1t, htprev]
    · rw [Arena.modify, ha1t, htnext]
    · rw [Arena.modify, ha1t, htfc]
    · rw [Arena.modify, ha1t, htlc2]
  have happ : append a p t =
      (.ok (),
        (a.modify lc (fun d => { d with value := .text (as ++ bs) })).set t
          { value := (a.get t).value, parent := none, firstChild := none,
            lastChild := none, prevSibling := none, nextSibling := none,
            removed := true }) := by
    simp only [append, hcheck, hcons]
  have hp_ne : p ≠ t := by
    intro h
    rw [h] at hlc
    rw [lastChild] at hlc
    rw [htlc2] at hlc
    cases hlc
  have hlc_ne : lc ≠ t := fun h => hne h.symm
  rw [happ]
  refine ⟨rfl, ?_, ?_, ?_, ?_, ?_⟩
  · rw [xmlValue, Arena.get_set_ne _ _ hlc_ne, Arena.modify, Arena.get_set_eq]
  · rw [isRemoved, Arena.get_set_eq]
  · rw [parent, Arena.get_set_eq]
  · rw [lastChild, lastChild, Arena.get_set_ne _ _ hp_ne, Arena.modify]
    by_cases hpl : p = lc
    · subst hpl
      rw [Arena.get_set_eq]
    · rw [Arena.get_set_ne _ _ hpl]
  · intro m hm
    rw [Arena.get_set_ne _ _ hm, Arena.modify]
    by_cases hml : m = lc
    · subst hml
      rw [Arena.get_set_eq]
      exact ⟨rfl, rfl, rfl, rfl, rfl, rfl, fun h => absurd rfl h⟩
    · rw [Arena.get_set_ne _ _ hml]
      exact ⟨rfl, rfl, rfl, rfl, rfl, rfl, fun _ => rfl⟩

/-- Witness arena for C5: element node 0 with the sole text child
"a" (node 1), plus a fresh text node "b" (node 2). -/
def c5W : Arena :=
  let a := (newElement Arena.empty 0).2
  let a := (appendText a 0 "a").2
  (newText a "b").2

/-- C5 witness: appending text "b" to an element whose sole child is
text "a" merges into a single text child "ab" and invalidates the
appended handle. -/
theorem append_text_consolidates_witness :
    (append c5W 0 2).1 = .ok () ∧
    xmlValue (append c5W 0 2).2 1 = .text ("a" ++ "b") ∧
    isRemoved (append c5W 0 2).2 2 = true := by
  have h := append_text_consolidates c5W 0 2 1 "b" "a" (by decide) (by decide)
    (by decide) (by decide) (by decide) (by decide) (by decide) (by decide)
    (by decide) (by decide)
  exact ⟨h.1, h.2.1, h.2.2.1⟩

/-- C3 counterexample.  The claim predicts that for
`insert_after(reference, new_text)` the merge candidate is the
reference's next sibling and never the reference itself; here the
reference (node 1, text "a") has no next sibling at all, so under the
claim no merge could happen and node 2 would be linked after node 1.
Instead the code merges the new text into the reference: node 1 becomes
"ab", node 2 is removed, and node 1 still has no next sibling. -/
theorem c3_counterexample_merges_into_reference :
    (insertAfter c5W 1 2).1 = .ok () ∧
    xmlValue (insertAfter c5W 1 2).2 1 = .text "ab" ∧
    isRemoved (insertAfter c5W 1 2).2 2 = true ∧
    nextSibling (insertAfter c5W 1 2).2 1 = none := by
  refine ⟨rfl, by decide, by decide, by decide⟩

/-- C3 as amended.  For `insert_after(reference, t)` with `t` a text
node, the merge candidate is the reference node itself (the node that
becomes the previous neighbour of the inserted node): when the
reference is a text node the new text is merged into it, and when the
reference is not a text node no consolidation happens at all — the
reference's next sibling is never examined — and `t` is linked directly
after the reference. -/
theorem insert_after_candidate_is_reference (a : Arena) (ref t pid : NodeId)
    (bs : String)
    (ht : xmlValue a t = .text bs)
    (hpar : parent a ref = some pid)
    (hproot : valueType a pid ≠ ValueType.root)
    (hne : t ≠ ref)
    (hremr : (a.get ref).removed = false)
    (hremt : (a.get t).removed = false)
    (htp : (a.get t).parent = none)
    (htprev : (a.get t).prevSibling = none)
    (htnext : (a.get t).nextSibling = none)
    (htfc : (a.get t).firstChild = none)
    (htlc : (a.get t).lastChild = none) :
    (∀ as, xmlValue a ref = .text as →
      (insertAfter a ref t).1 = .ok () ∧
      xmlValue (insertAfter a ref t).2 ref = .text (as ++ bs) ∧
      isRemoved (insertAfter a ref t).2 t = true ∧
      (∀ m, m ≠ t → m ≠ ref → (insertAfter a ref t).2.get m = a.get m)) ∧
    (valueType a ref ≠ ValueType.text →
      addConsolidateTextNodes a t (some ref) (nextSibling a ref) = (false, a) ∧
      (insertAfter a ref t).1 = .ok () ∧
      nextSibling (insertAfter a ref t).2 ref = some t) := by
  have hvt : valueType a t = ValueType.text := by
    simp [valueType, ht, XmlValue.valueType]
  have hriso : isRoot a pid = false := by
    simp [isRoot]
    exact hproot
  have hcheck : addStructureCheck a (parent a ref) t = .ok () := by
    rw [hpar]
    simp [addStructureCheck, hvt, hriso]
    rfl
  have hrt : ref ≠ t := fun h => hne h.symm
  have ha1t : ∀ d, ((a.set ref d).get t) = a.get t :=
    fun d => Arena.get_set_ne a d hne
  constructor
  · intro as href
    have hcons : addConsolidateTextNodes a t (some ref) (nextSibling a ref) =
        (true,
          (a.modify ref (fun d => { d with value := .text (as ++ bs) })).set t
            { value := (a.get t).value, parent := none, firstChild := none,
              lastChild := none, prevSibling := none, nextSibling := none,
              removed := true }) := by
      simp only [addConsolidateTextNodes, ht, href]
      rw [removeNode_unlinked]
      · rw [Arena.modify, ha1t]
      · rw [Arena.modify, ha1t, htp]
      · rw [Arena.modify, ha1t, htprev]
      · rw [Arena.modify, ha1t, htnext]
      · rw [Arena.modify, ha1t, htfc]
      · rw [Arena.modify, ha1t, htlc]
    have heq : insertAfter a ref t =
        (.ok (),
          (a.modify ref (fun d => { d with value := .text (as ++ bs) })).set t
            { value := (a.get t).value, parent := none, firstChild := none,
              lastChild := none, prevSibling := none, nextSibling := none,
              removed := true }) := by
      simp only [insertAfter, hcheck, hcons]
    rw [heq]
    refine ⟨rfl, ?_, ?_, ?_⟩
    · rw [xmlValue, Arena.get_set_ne _ _ hrt, Arena.modify, Arena.get_set_eq]
    · rw [isRemoved, Arena.get_set_eq]
    · intro m hmt hmr
      rw [Arena.get_set_ne _ _ hmt, Arena.modify, Arena.get_set_ne _ _ hmr]
  · intro hreftext
    have hcons : addConsolidateTextNodes a t (some ref) (nextSibling a ref) =
        (false, a) := by
      simp only [addConsolidateTextNodes, ht]
      cases hv : xmlValue a ref with
      | text s =>
        exact absurd (by simp [valueType, hv, XmlValue.valueType]) hreftext
      | root => rfl
      | element e => rfl
      | comment s => rfl
      | processingInstruction s d => rfl
    have hchk2 : checkedInsertAfter a ref t = .ok (insertAfterNode a ref t) := by
      unfold checkedInsertAfter
      rw [if_neg hne, hremr, hremt]
      rfl
    have heq : insertAfter a ref t = (.ok (), insertAfterNode a ref t) := by
      simp only [insertAfter, hcheck, hcons, hchk2]
    refine ⟨hcons, by rw [heq], ?_⟩
    rw [heq]
    show nextSibling (insertAfterNode a ref t) ref = some t
    simp only [insertAfterNode, nextSibling, Arena.modify]
    rw [Arena.get_set_ne _ _ hrt, Arena.get_set_eq]

/-- C3 witness for the amended claim: inserting text "b" after the sole
text child "a" merges into the reference node itself. -/
theorem insert_after_candidate_is_reference_witness :
    (insertAfter c5W 1 2).1 = .ok () ∧
    xmlValue (insertAfter c5W 1 2).2 1 = .text ("a" ++ "b") ∧
    isRemoved (insertAfter c5W 1 2).2 2 = true := by
  have h := (insert_after_candidate_is_reference c5W 1 2 0 "b" (by decide)
    (by decide) (by decide) (by decide) (by decide) (by decide) (by decide)
    (by decide) (by decide) (by decide) (by decide)).1 "a" (by decide)
  exact ⟨h.1, h.2.1, h.2.2.1⟩

/-- Helper: a slot update that keeps the value and liveness fields
leaves every slot's value and liveness unchanged. -/
theorem get_modify_value_removed (a : Arena) (x m : NodeId)
    (f : NodeData → NodeData)
    (hv : ∀ d, (f d).value = d.value) (hr : ∀ d, (f d).removed = d.removed) :
    ((a.modify x f).get m).value = (a.get m).value ∧
    ((a.modify x f).get m).removed = (a.get m).removed := by
  by_cases h : m = x
  · subst h
    rw [Arena.modify, Arena.get_set_eq]
    exact ⟨hv _, hr _⟩
  · rw [Arena.modify, Arena.get_set_ne _ _ h]
    exact ⟨rfl, rfl⟩

/-- Helper: a slot update that keeps the next-sibling field leaves every
slot's next-sibling link unchanged. -/
theorem get_modify_nextSibling (a : Arena) (x m : NodeId)
    (f : NodeData → NodeData)
    (hn : ∀ d, (f d).nextSibling = d.nextSibling) :
    ((a.modify x f).get m).nextSibling = (a.get m).nextSibling := by
  by_cases h : m = x
  · subst h
    rw [Arena.modify, Arena.get_set_eq]
    exact hn _
  · rw [Arena.modify, Arena.get_set_ne _ _ h]

/-- Helper: what `removeNode` does to a childless node `q` whose
previous sibling is `p`: `q`'s slot is invalidated, values and liveness
of all other slots are untouched, and `p` inherits `q`'s next-sibling
link. -/
theorem removeNode_facts (a : Arena) (q p : NodeId)
    (hfc : (a.get q).firstChild = none) (hlc : (a.get q).lastChild = none)
    (hprev : (a.get q).prevSibling = some p) (hpq : p ≠ q) :
    isRemoved (removeNode a q) q = true ∧
    (∀ m, m ≠ q → ((removeNode a q).get m).value = (a.get m).value ∧
      ((removeNode a q).get m).removed = (a.get m).removed) ∧
    nextSibling (removeNode a q) p = (a.get q).nextSibling := by
  unfold removeNode
  simp only [hfc, hlc, hprev, optOr, reparentChain_none]
  refine ⟨by rw [isRemoved, Arena.get_set_eq], ?_, ?_⟩
  · intro m hm
    rw [Arena.get_set_ne _ _ hm]
    split
    · constructor <;>
        (simp only [Arena.modify, Arena.get, Arena.set]
         split_ifs <;> subst_vars <;> simp_all)
    · split
      · constructor <;>
          (simp only [Arena.modify, Arena.get, Arena.set]
           split_ifs <;> subst_vars <;> simp_all)
      · constructor <;>
          (simp only [Arena.modify, Arena.get, Arena.set]
           split_ifs <;> subst_vars <;> simp_all)
  · rw [nextSibling, Arena.get_set_ne _ _ hpq]
    split
    · simp only [Arena.modify, Arena.get, Arena.set]
      split_ifs <;> subst_vars <;> simp_all
    · split
      · simp only [Arena.modify, Arena.get, Arena.set]
        split_ifs <;> subst_vars <;> simp_all
      · simp only [Arena.modify, Arena.get, Arena.set]
        split_ifs <;> subst_vars <;> simp_all

/-- Helper: marking a list of slots removed does not touch slots
outside the list. -/
theorem markRemoved_get_notMem (ds : List NodeId) (a : Arena) (m : NodeId)
    (h : m ∉ ds) : (markRemoved a ds).get m = a.get m := by
  induction ds generalizing a with
  | nil => rfl
  | cons x xs ih =>
    have hx : m ≠ x := fun e => h (e ▸ List.mem_cons_self x xs)
    have hxs : m ∉ xs := fun e => h (List.mem_cons_of_mem x e)
    show (markRemoved (a.modify x fun d => { d with removed := true }) xs).get m
      = a.get m
    rw [ih _ hxs, Arena.modify, Arena.get_set_ne _ _ hx]

/-- Helper: every slot in the marked list ends up removed. -/
theorem markRemoved_removed_mem (ds : List NodeId) (a : Arena) (m : NodeId)
    (h : m ∈ ds) : ((markRemoved a ds).get m).removed = true := by
  induction ds generalizing a with
  | nil => cases h
  | cons x xs ih =>
    show ((markRemoved (a.modify x fun d => { d with removed := true }) xs).get m).removed
      = true
    by_cases hm : m ∈ xs
    · exact ih _ hm
    · have hmx : m = x := by
        rcases List.mem_cons.mp h with h1 | h2
        · exact h1
        · exact absurd h2 hm
      subst hmx
      rw [markRemoved_get_notMem _ _ _ hm, Arena.modify, Arena.get_set_eq]

/-- Helper: the removal consolidation on two text siblings merges the
next sibling's content into the previous one and removes the next. -/
theorem removeConsolidate_merge (A : Arena) (p q : NodeId) (pa qb : String)
    (hpv : (A.get p).value = XmlValue.text pa)
    (hqv : (A.get q).value = XmlValue.text qb) :
    removeConsolidateTextNodes A (some p) (some q) =
      (true, removeNode
        (A.modify p (fun d => { d with value := .text (pa ++ qb) })) q) := by
  have htp' : text A p = some pa := by simp [text, xmlValue, hpv]
  have htq' : text A q = some qb := by simp [text, xmlValue, hqv]
  simp only [removeConsolidateTextNodes, htp', htq']

/-- Helper: the observable result of merging into `p` and removing the
childless text node `q`. -/
theorem mergeRemove_facts (A : Arena) (p q : NodeId) (pa qb : String)
    (hpq : p ≠ q)
    (hfc : (A.get q).firstChild = none) (hlc : (A.get q).lastChild = none)
    (hprev : (A.get q).prevSibling = some p) :
    xmlValue (removeNode
        (A.modify p (fun d => { d with value := XmlValue.text (pa ++ qb) })) q) p
      = .text (pa ++ qb) ∧
    isRemoved (removeNode
        (A.modify p (fun d => { d with value := XmlValue.text (pa ++ qb) })) q) q
      = true ∧
    nextSibling (removeNode
        (A.modify p (fun d => { d with value := XmlValue.text (pa ++ qb) })) q) p
      = (A.get q).nextSibling := by
  have hqp : q ≠ p := fun e => hpq e.symm
  have hBq : ∀ d, ((A.set p d).get q) = A.get q := fun d => Arena.get_set_ne A d hqp
  have facts := removeNode_facts
    (A.modify p (fun d => { d with value := XmlValue.text (pa ++ qb) })) q p
    (by rw [Arena.modify, hBq]; exact hfc)
    (by rw [Arena.modify, hBq]; exact hlc)
    (by rw [Arena.modify, hBq]; exact hprev) hpq
  refine ⟨?_, facts.1, ?_⟩
  · rw [xmlValue, (facts.2.1 p hpq).1, Arena.modify, Arena.get_set_eq]
  · rw [facts.2.2, Arena.modify, hBq]

/-- C6.  For a successful `detach(n)` or `remove(n)` where `n`'s former
previous sibling `p` and former next sibling `q` are both text nodes
(with contents `pa` and `qb`), afterwards `p`'s content is `pa ++ qb`,
`q` is removed, and — for `detach` — `p`'s next sibling becomes `q`'s
former next sibling, so a single text node stands in the removed node's
place. -/
theorem detach_remove_consolidate (a : Arena) (n p q : NodeId) (pa qb : String)
    (hchk : removeStructureCheck a n = .ok ())
    (hp : (a.get n).prevSibling = some p)
    (hq : (a.get n).nextSibling = some q)
    (hpt : xmlValue a p = .text pa)
    (hqt : xmlValue a q = .text qb)
    (hpn : p ≠ n) (hqn : q ≠ n) (hpq : p ≠ q)
    (hqfc : (a.get q).firstChild = none)
    (hqlc : (a.get q).lastChild = none)
    (hpd : p ∉ descend (detachNode a n) n)
    (hqd : q ∉ descend (detachNode a n) n) :
    (detach a n).1 = .ok () ∧
    xmlValue (detach a n).2 p = .text (pa ++ qb) ∧
    isRemoved (detach a n).2 q = true ∧
    nextSibling (detach a n).2 p = (a.get q).nextSibling ∧
    (remove a n).1 = .ok () ∧
    xmlValue (remove a n).2 p = .text (pa ++ qb) ∧
    isRemoved (remove a n).2 q = true := by
  have hqp : q ≠ p := fun e => hpq e.symm
  have hAdef : detachNode a n =
      ((a.modify p (fun d => { d with nextSibling := some q })).modify q
        (fun d => { d with prevSibling := some p })).modify n
        (fun d => { d with parent := none, prevSibling := none, nextSibling := none }) := by
    simp only [detachNode, hp, hq]
  have hAp : (detachNode a n).get p = { a.get p with nextSibling := some q } := by
    rw [hAdef, Arena.modify, Arena.modify, Arena.modify,
      Arena.get_set_ne _ _ hpn, Arena.get_set_ne _ _ hpq, Arena.get_set_eq]
  have hAq : (detachNode a n).get q = { a.get q with prevSibling := some p } := by
    rw [hAdef, Arena.modify, Arena.modify, Arena.modify,
      Arena.get_set_ne _ _ hqn, Arena.get_set_eq, Arena.get_set_ne _ _ hqp]
  have hApv : ((detachNode a n).get p).value = XmlValue.text pa := by
    rw [hAp]; exact hpt
  have hAqv : ((detachNode a n).get q).value = XmlValue.text qb := by
    rw [hAq]; exact hqt
  have hconsA := removeConsolidate_merge (detachNode a n) p q pa qb hApv hAqv
  have hdetach : detach a n = (.ok (), removeNode
      ((detachNode a n).modify p
        (fun d => { d with value := XmlValue.text (pa ++ qb) })) q) := by
    simp only [detach, hchk, previousSibling, nextSibling, hp, hq, hconsA]
  have hfactsA := mergeRemove_facts (detachNode a n) p q pa qb hpq
    (by rw [hAq]; exact hqfc) (by rw [hAq]; exact hqlc) (by rw [hAq])
  -- the remove path
  have hA2p : (removeSubtree a n).get p = (detachNode a n).get p :=
    markRemoved_get_notMem _ _ _ hpd
  have hA2q : (removeSubtree a n).get q = (detachNode a n).get q :=
    markRemoved_get_notMem _ _ _ hqd
  have hA2pv : ((removeSubtree a n).get p).value = XmlValue.text pa := by
    rw [hA2p]; exact hApv
  have hA2qv : ((removeSubtree a n).get q).value = XmlValue.text qb := by
    rw [hA2q]; exact hAqv
  have hconsA2 := removeConsolidate_merge (removeSubtree a n) p q pa qb hA2pv hA2qv
  have hremove : remove a n = (.ok (), removeNode
      ((removeSubtree a n).modify p
        (fun d => { d with value := XmlValue.text (pa ++ qb) })) q) := by
    simp only [remove, hchk, previousSibling, nextSibling, hp, hq, hconsA2]
  have hfactsA2 := mergeRemove_facts (removeSubtree a n) p q pa qb hpq
    (by rw [hA2q, hAq]; exact hqfc) (by rw [hA2q, hAq]; exact hqlc)
    (by rw [hA2q, hAq])
  rw [hdetach, hremove]
  refine ⟨rfl, hfactsA.1, hfactsA.2.1, ?_, rfl, hfactsA2.1, hfactsA2.2.1⟩
  rw [hfactsA.2.2, hAq]

/-- Witness arena for C6: element node 0 with children [text "a"
(node 1), element (node 2), text "b" (node 3)]. -/
def c6W : Arena :=
  let a := (newElement Arena.empty 0).2
  let a := (appendText a 0 "a").2
  let a := (newElement a 7).2
  let a := (append a 0 2).2
  (appendText a 0 "b").2

/-- C6 witness: removing (or detaching) the element between text
siblings "a" and "b" leaves a single text sibling "ab" in its place. -/
theorem detach_remove_consolidate_witness :
    (detach c6W 2).1 = .ok () ∧
    xmlValue (detach c6W 2).2 1 = .text ("a" ++ "b") ∧
    isRemoved (detach c6W 2).2 3 = true ∧
    nextSibling (detach c6W 2).2 1 = none ∧
    (remove c6W 2).1 = .ok () ∧
    xmlValue (remove c6W 2).2 1 = .text ("a" ++ "b") ∧
    isRemoved (remove c6W 2).2 3 = true := by
  have h := detach_remove_consolidate c6W 2 1 3 "a" "b" rfl (by decide)
    (by decide) (by decide) (by decide) (by decide) (by decide) (by decide)
    (by decide) (by decide) (by decide) (by decide)
  exact ⟨h.1, h.2.1, h.2.2.1, h.2.2.2.1, h.2.2.2.2.1, h.2.2.2.2.2.1,
    h.2.2.2.2.2.2⟩

/-- Helper: the sibling walk reads the arena only at the nodes it
emits, so two arenas agreeing on those nodes' child and sibling links
walk identically. -/
theorem walk_congr (A a : Arena) (fuel : Nat) (c : Option NodeId)
    (s : List (Option NodeId))
    (h : ∀ m ∈ walk a fuel c s,
      (A.get m).firstChild = (a.get m).firstChild ∧
      (A.get m).nextSibling = (a.get m).nextSibling) :
    walk A fuel c s = walk a fuel c s := by
  induction fuel generalizing c s with
  | zero => rfl
  | succ f ih =>
    cases c with
    | some m =>
      have hm : m ∈ walk a (f + 1) (some m) s := List.mem_cons_self m _
      have hgm := h m hm
      show m :: walk A f (A.get m).firstChild ((A.get m).nextSibling :: s)
        = m :: walk a f (a.get m).firstChild ((a.get m).nextSibling :: s)
      rw [hgm.1, hgm.2]
      congr 1
      apply ih
      intro x hx
      exact h x (List.mem_cons_of_mem _ hx)
    | none =>
      cases s with
      | nil => rfl
      | cons s0 rest =>
        show walk A f s0 rest = walk a f s0 rest
        apply ih
        intro x hx
        exact h x hx

/-- Helper: detaching a node does not change the arena's slot count. -/
theorem detachNode_size (a : Arena) (n : NodeId) :
    (detachNode a n).size = a.size := by
  simp only [detachNode]
  repeat' split
  all_goals rfl

/-- Helper: a slot update that keeps every link field changes no slot's
links. -/
theorem get_modify_links (a : Arena) (x m : NodeId) (f : NodeData → NodeData)
    (hf : ∀ d, (f d).parent = d.parent ∧ (f d).firstChild = d.firstChild ∧
      (f d).lastChild = d.lastChild ∧ (f d).prevSibling = d.prevSibling ∧
      (f d).nextSibling = d.nextSibling) :
    ((a.modify x f).get m).parent = (a.get m).parent ∧
    ((a.modify x f).get m).firstChild = (a.get m).firstChild ∧
    ((a.modify x f).get m).lastChild = (a.get m).lastChild ∧
    ((a.modify x f).get m).prevSibling = (a.get m).prevSibling ∧
    ((a.modify x f).get m).nextSibling = (a.get m).nextSibling := by
  by_cases h : m = x
  · subst h
    rw [Arena.modify, Arena.get_set_eq]
    exact hf _
  · rw [Arena.modify, Arena.get_set_ne _ _ h]
    exact ⟨rfl, rfl, rfl, rfl, rfl⟩

/-- Helper: a slot update that keeps the liveness flag changes no
slot's liveness. -/
theorem get_modify_removed (a : Arena) (x m : NodeId) (f : NodeData → NodeData)
    (hr : ∀ d, (f d).removed = d.removed) :
    ((a.modify x f).get m).removed = (a.get m).removed := by
  by_cases h : m = x
  · subst h
    rw [Arena.modify, Arena.get_set_eq]
    exact hr _
  · rw [Arena.modify, Arena.get_set_ne _ _ h]

/-- Helper: the child-reparenting loop never changes liveness. -/
theorem reparentChain_removed (a : Arena) (fuel : Nat) (c par : Option NodeId)
    (m : NodeId) :
    ((reparentChain a fuel c par).get m).removed = (a.get m).removed := by
  induction fuel generalizing a c with
  | zero => cases c <;> rfl
  | succ f ih =>
    cases c with
    | none => rfl
    | some x =>
      show ((reparentChain (a.modify x fun d => { d with parent := par }) f
        ((a.get x).nextSibling) par).get m).removed = (a.get m).removed
      rw [ih]
      exact get_modify_removed a x m _ (fun _ => rfl)

/-- Helper: after `removeNode q`, the slot `q` is removed. -/
theorem removeNode_removed_self (A : Arena) (q : NodeId) :
    ((removeNode A q).get q).removed = true := by
  unfold removeNode
  rw [Arena.get_set_eq]

/-- Helper: `removeNode q` does not change the liveness of any other
slot. -/
theorem removeNode_removed_other (A : Arena) (q m : NodeId) (hmq : m ≠ q) :
    ((removeNode A q).get m).removed = (A.get m).removed := by
  unfold removeNode
  rw [Arena.get_set_ne _ _ hmq, reparentChain_removed]
  repeat' split
  all_goals
    ((simp only [Arena.modify, Arena.get, Arena.set]) <;>
      (first
        | rfl
        | (split_ifs <;> simp_all)))

/-- Helper: the removal consolidation never revives a removed slot. -/
theorem removeConsolidate_removed_mono (A : Arena) (p? q? : Option NodeId)
    (m : NodeId) (h : ((A.get m)).removed = true) :
    ((((removeConsolidateTextNodes A p? q?).2)).get m).removed = true := by
  cases p? with
  | none => exact h
  | some p =>
    cases q? with
    | none => exact h
    | some q =>
      rcases htp : text A p with _ | pt
      · simp only [removeConsolidateTextNodes, htp]
        exact h
      · rcases htq : text A q with _ | qt
        · simp only [removeConsolidateTextNodes, htp, htq]
          exact h
        · simp only [removeConsolidateTextNodes, htp, htq]
          by_cases hmq : m = q
          · subst hmq
            exact removeNode_removed_self _ m
          · rw [removeNode_removed_other _ _ _ hmq]
            exact (get_modify_removed A p m
              (fun d => { d with value := XmlValue.text (pt ++ qt) })
              (fun _ => rfl)).trans h

/-- Helper: `removeNode q` on a childless node does not touch a slot
that is neither `q` nor one of `q`'s prev/next/parent link targets. -/
theorem removeNode_get_other (A : Arena) (q m : NodeId) (hmq : m ≠ q)
    (hfc : (A.get q).firstChild = none) (hlc : (A.get q).lastChild = none)
    (hprev : (A.get q).prevSibling ≠ some m)
    (hnext : (A.get q).nextSibling ≠ some m)
    (hpar : (A.get q).parent ≠ some m) :
    (removeNode A q).get m = A.get m := by
  unfold removeNode
  simp only [hfc, hlc, optOr, reparentChain_none]
  rw [Arena.get_set_ne _ _ hmq]
  repeat' split
  all_goals
    ((simp only [Arena.modify, Arena.get, Arena.set]) <;>
      (first
        | rfl
        | (split_ifs <;> subst_vars <;> simp_all)))

/-- Helper: the removal consolidation does not touch a slot `m` that is
not one of the two consolidated siblings nor a link target of the
removed one. -/
theorem removeConsolidate_get_other (A : Arena) (p? q? : Option NodeId)
    (m : NodeId) (hmp : p? ≠ some m) (hmq : q? ≠ some m)
    (hq : ∀ p q, p? = some p → q? = some q →
      (text A p).isSome → (text A q).isSome →
      (A.get q).firstChild = none ∧ (A.get q).lastChild = none ∧
      (A.get q).prevSibling ≠ some m ∧ (A.get q).nextSibling ≠ some m ∧
      (A.get q).parent ≠ some m) :
    ((removeConsolidateTextNodes A p? q?).2).get m = A.get m := by
  cases p? with
  | none => rfl
  | some p =>
    cases q? with
    | none => rfl
    | some q =>
      rcases htp : text A p with _ | pt
      · simp only [removeConsolidateTextNodes, htp]
      · rcases htq : text A q with _ | qt
        · simp only [removeConsolidateTextNodes, htp, htq]
        · simp only [removeConsolidateTextNodes, htp, htq]
          obtain ⟨hfc, hlc, hpv, hnx, hpr⟩ := hq p q rfl rfl
            (by rw [htp]; rfl) (by rw [htq]; rfl)
          have hmp' : m ≠ p := fun e => hmp (by rw [e])
          have hmq' : m ≠ q := fun e => hmq (by rw [e])
          have hl := get_modify_links A p q
            (fun d => { d with value := XmlValue.text (pt ++ qt) })
            (fun _ => ⟨rfl, rfl, rfl, rfl, rfl⟩)
          have hstep := removeNode_get_other
            (A.modify p (fun d => { d with value := XmlValue.text (pt ++ qt) }))
            q m hmq' (hl.2.1.trans hfc) (hl.2.2.1.trans hlc)
            (fun e => hpv (hl.2.2.2.1.symm.trans e))
            (fun e => hnx (hl.2.2.2.2.symm.trans e))
            (fun e => hpr (hl.1.symm.trans e))
          rw [hstep, Arena.modify, Arena.get_set_ne _ _ hmp']

/-- Helper: `detachNode n` does not touch a slot that is neither `n`
nor one of `n`'s prev/next/parent link targets. -/
theorem detachNode_get_other (a : Arena) (n m : NodeId) (hmn : m ≠ n)
    (hprev : (a.get n).prevSibling ≠ some m)
    (hnext : (a.get n).nextSibling ≠ some m)
    (hpar : (a.get n).parent ≠ some m) :
    (detachNode a n).get m = a.get m := by
  simp only [detachNode]
  repeat' split
  all_goals
    ((simp only [Arena.modify, Arena.get, Arena.set]) <;>
      (first
        | rfl
        | (split_ifs <;> subst_vars <;> simp_all)))

/-- Helper: what `detachNode n` does to `n`'s own slot, when `n` is not
its own sibling or parent: its parent and sibling links are cleared and
everything else kept. -/
theorem detachNode_get_self (a : Arena) (n : NodeId)
    (hprev : (a.get n).prevSibling ≠ some n)
    (hnext : (a.get n).nextSibling ≠ some n)
    (hpar : (a.get n).parent ≠ some n) :
    (detachNode a n).get n =
      { a.get n with parent := none, prevSibling := none, nextSibling := none } := by
  simp only [detachNode]
  repeat' split
  all_goals
    ((simp only [Arena.modify, Arena.get, Arena.set]) <;>
      (first
        | rfl
        | (split_ifs <;> subst_vars <;> simp_all)))

/-- C7.  After a successful `detach(n)` the node `n` and every node of
its subtree keep their liveness, `n` loses its parent, `n` keeps its
value and child links, and every strict descendant's slot is completely
unchanged; after a successful `remove(n)`, `n` and every descendant are
invalidated.  The separation hypotheses say that the subtree does not
overlap the detached node's outer neighbourhood, which holds in every
well-formed tree. -/
theorem detach_keeps_subtree_remove_invalidates (a : Arena) (n : NodeId)
    (hchk : removeStructureCheck a n = .ok ())
    (hnr : n ∉ strictDescend a n)
    (hsep : ∀ m ∈ descend a n,
      (a.get n).prevSibling ≠ some m ∧ (a.get n).nextSibling ≠ some m ∧
      (a.get n).parent ≠ some m)
    (hcons : ∀ m ∈ descend a n, ∀ p q,
      (a.get n).prevSibling = some p → (a.get n).nextSibling = some q →
      (text (detachNode a n) p).isSome → (text (detachNode a n) q).isSome →
      ((detachNode a n).get q).firstChild = none ∧
      ((detachNode a n).get q).lastChild = none ∧
      ((detachNode a n).get q).prevSibling ≠ some m ∧
      ((detachNode a n).get q).nextSibling ≠ some m ∧
      ((detachNode a n).get q).parent ≠ some m) :
    (detach a n).1 = .ok () ∧
    parent (detach a n).2 n = none ∧
    ((detach a n).2.get n).value = (a.get n).value ∧
    ((detach a n).2.get n).firstChild = (a.get n).firstChild ∧
    ((detach a n).2.get n).lastChild = (a.get n).lastChild ∧
    (∀ m ∈ descend a n, isRemoved (detach a n).2 m = isRemoved a m) ∧
    (∀ m ∈ descend a n, m ≠ n → (detach a n).2.get m = a.get m) ∧
    (remove a n).1 = .ok () ∧
    (∀ m ∈ descend a n, isRemoved (remove a n).2 m = true) := by
  have hnmem : n ∈ descend a n := List.mem_cons_self n _
  have hs_n := hsep n hnmem
  have hAn := detachNode_get_self a n hs_n.1 hs_n.2.1 hs_n.2.2
  have hAother : ∀ m ∈ descend a n, m ≠ n →
      (detachNode a n).get m = a.get m := by
    intro m hm hmn
    exact detachNode_get_other a n m hmn (hsep m hm).1 (hsep m hm).2.1
      (hsep m hm).2.2
  have hdet2 : detach a n = (.ok (),
      (removeConsolidateTextNodes (detachNode a n)
        ((a.get n).prevSibling) ((a.get n).nextSibling)).2) := by
    simp only [detach, hchk, previousSibling, nextSibling]
  have hphase2 : ∀ m ∈ descend a n,
      ((removeConsolidateTextNodes (detachNode a n)
        ((a.get n).prevSibling) ((a.get n).nextSibling)).2).get m
      = (detachNode a n).get m := by
    intro m hm
    exact removeConsolidate_get_other (detachNode a n)
      ((a.get n).prevSibling) ((a.get n).nextSibling) m
      (hsep m hm).1 (hsep m hm).2.1
      (fun p q hp hq htp htq => hcons m hm p q hp hq htp htq)
  -- the remove path
  have hfuel : (detachNode a n).fuel = a.fuel := by
    rw [Arena.fuel, Arena.fuel, detachNode_size]
  have hds : descend (detachNode a n) n = descend a n := by
    show n :: strictDescend (detachNode a n) n = n :: strictDescend a n
    rw [strictDescend, strictDescend, hfuel]
    have hfcn : ((detachNode a n).get n).firstChild = (a.get n).firstChild := by
      rw [hAn]
    rw [hfcn]
    congr 1
    apply walk_congr
    intro x hx
    have hxd : x ∈ descend a n := List.mem_cons_of_mem _ hx
    have hxn : x ≠ n := fun e => hnr (e ▸ hx)
    rw [hAother x hxd hxn]
    exact ⟨rfl, rfl⟩
  have hrem2 : remove a n = (.ok (),
      (removeConsolidateTextNodes (removeSubtree a n)
        ((a.get n).prevSibling) ((a.get n).nextSibling)).2) := by
    simp only [remove, hchk, previousSibling, nextSibling]
  have hA2removed : ∀ m ∈ descend a n,
      ((removeSubtree a n).get m).removed = true := by
    intro m hm
    show ((markRemoved (detachNode a n) (descend (detachNode a n) n)).get m).removed
      = true
    apply markRemoved_removed_mem
    rw [hds]
    exact hm
  rw [hdet2, hrem2]
  refine ⟨rfl, ?_, ?_, ?_, ?_, ?_, ?_, rfl, ?_⟩
  · rw [parent, hphase2 n hnmem, hAn]
  · rw [hphase2 n hnmem, hAn]
  · rw [hphase2 n hnmem, hAn]
  · rw [hphase2 n hnmem, hAn]
  · intro m hm
    rw [isRemoved, hphase2 m hm]
    by_cases hmn : m = n
    · subst hmn
      rw [hAn, isRemoved]
    · rw [hAother m hm hmn, isRemoved]
  · intro m hm hmn
    rw [hphase2 m hm, hAother m hm hmn]
  · intro m hm
    rw [isRemoved]
    exact removeConsolidate_removed_mono _ _ _ m (hA2removed m hm)

/-- Witness arena for C7: element node 0 with children [text "a"
(node 1), element node 2 (whose child is text "x", node 3), text "b"
(node 4)]; node 2 is detached or removed, which also triggers the
removal consolidation of nodes 1 and 4. -/
def c7W : Arena :=
  let a := (newElement Arena.empty 0).2
  let a := (appendText a 0 "a").2
  let a := (newElement a 7).2
  let a := (append a 0 2).2
  let a := (appendText a 2 "x").2
  (appendText a 0 "b").2

/-- C7 witness: detaching node 2 leaves it and its child node 3 live
with the subtree intact and node 2 parentless; removing node 2
invalidates both. -/
theorem detach_keeps_subtree_remove_invalidates_witness :
    (detach c7W 2).1 = .ok () ∧
    parent (detach c7W 2).2 2 = none ∧
    ((detach c7W 2).2.get 2).firstChild = (c7W.get 2).firstChild ∧
    isRemoved (detach c7W 2).2 2 = isRemoved c7W 2 ∧
    isRemoved (detach c7W 2).2 3 = isRemoved c7W 3 ∧
    (detach c7W 2).2.get 3 = c7W.get 3 ∧
    (remove c7W 2).1 = .ok () ∧
    isRemoved (remove c7W 2).2 2 = true ∧
    isRemoved (remove c7W 2).2 3 = true := by
  have h := detach_keeps_subtree_remove_invalidates c7W 2 rfl (by decide)
    (by decide)
    (by
      intro m hm p q hp hq htp htq
      have hp' : (c7W.get 2).prevSibling = some 1 := by decide
      have hq' : (c7W.get 2).nextSibling = some 4 := by decide
      rw [hp'] at hp
      rw [hq'] at hq
      cases Option.some.inj hp
      cases Option.some.inj hq
      revert m hm
      decide)
  exact ⟨h.1, h.2.1, h.2.2.2.1, h.2.2.2.2.2.1 2 (by decide),
    h.2.2.2.2.2.1 3 (by decide), h.2.2.2.2.2.2.1 3 (by decide) (by decide),
    h.2.2.2.2.2.2.2.1, h.2.2.2.2.2.2.2.2 2 (by decide),
    h.2.2.2.2.2.2.2.2 3 (by decide)⟩

/-! Namespace resolution (`src/document.rs`) and the name layer. -/

/-- First-match lookup in an association list, modelling `HashMap::get`
on the per-element declaration maps. -/
def assocGet {α β : Type} [DecidableEq α] : List (α × β) → α → Option β
  | [], _ => none
  | (k, v) :: rest, key => if k = key then some v else assocGet rest key

/-- The prefix bound to `namespace_id` by the declarations made at node
`m` itself, if `m` is an element that declares one. -/
def declaredPrefixAt (arena : Arena) (m : NodeId) (namespace_id : NamespaceId) :
    Option PrefixId :=
  match (arena.get m).value with
  | .element e => assocGet e.namespace_info.toPrefixMap namespace_id
  | _ => none

/-- The namespace bound to `prefix_id` by the declarations made at node
`m` itself, if `m` is an element that declares one. -/
def declaredNamespaceAt (arena : Arena) (m : NodeId) (prefix_id : PrefixId) :
    Option NamespaceId :=
  match (arena.get m).value with
  | .element e => assocGet e.namespace_info.toNamespaceMap prefix_id
  | _ => none

/-- First node of the list whose per-node lookup answers, with its
answer — the shape of the `for ancestor in ancestors` loops of
`src/document.rs`. -/
def firstDecl {α : Type} (f : NodeId → Option α) : List NodeId → Option α
  | [] => none
  | m :: rest =>
    match f m with
    | some v => some v
    | none => firstDecl f rest

/-- `document.rs::prefix_by_namespace`: walk the ancestor chain
(starting at the node itself) and return the first prefix declared for
`namespace_id`. -/
def prefix_by_namespace (node_id : NodeId) (namespace_id : NamespaceId)
    (arena : Arena) : Option PrefixId :=
  firstDecl (fun anc => declaredPrefixAt arena anc namespace_id)
    (ancestors arena node_id)

/-- The second resolution walk of `document.rs` (its name here carries
an `_id` suffix): walk the ancestor chain and return the first
namespace declared for `prefix_id`. -/
def namespace_by_prefix_id (node_id : NodeId) (prefix_id : PrefixId)
    (arena : Arena) : Option NamespaceId :=
  firstDecl (fun anc => declaredNamespaceAt arena anc prefix_id)
    (ancestors arena node_id)

/-- Helper: the first-declaration search skips a prefix of the chain
that declares nothing. -/
theorem firstDecl_append_none {α : Type} (f : NodeId → Option α)
    (pre : List NodeId) (rest : List NodeId)
    (hpre : ∀ x ∈ pre, f x = none) :
    firstDecl f (pre ++ rest) = firstDecl f rest := by
  induction pre with
  | nil => rfl
  | cons x xs ih =>
    have hx : f x = none := hpre x (List.mem_cons_self x xs)
    show (match f x with
      | some v => some v
      | none => firstDecl f (xs ++ rest)) = firstDecl f rest
    rw [hx]
    exact ih (fun y hy => hpre y (List.mem_cons_of_mem x hy))

/-- Helper: the first-declaration search answers `none` exactly on
chains in which no node declares anything. -/
theorem firstDecl_eq_none_iff {α : Type} (f : NodeId → Option α)
    (l : List NodeId) :
    firstDecl f l = none ↔ ∀ x ∈ l, f x = none := by
  induction l with
  | nil => simp [firstDecl]
  | cons x xs ih =>
    constructor
    · intro h y hy
      revert h
      show (match f x with
        | some v => some v
        | none => firstDecl f xs) = none → f y = none
      rcases hfx : f x with _ | v
      · intro h
        rcases List.mem_cons.mp hy with h1 | h2
        · rw [h1, hfx]
        · exact ih.mp h y h2
      · intro h
        cases h
    · intro h
      show (match f x with
        | some v => some v
        | none => firstDecl f xs) = none
      rw [h x (List.mem_cons_self x xs)]
      exact ih.mpr (fun y hy => h y (List.mem_cons_of_mem x hy))

/-- C8.  `prefix_by_namespace` returns the binding declared at the
nearest node of the ancestor chain (the node itself first) that
declares one — nearer declarations shadow farther ones — and `none`
exactly when no element of the chain declares one; `namespace_by_prefix_id`
is symmetric. -/
theorem nearest_declaration_wins (arena : Arena) (node : NodeId)
    (ns : NamespaceId) (pfx : PrefixId) :
    (∀ pre m rest, ancestors arena node = pre ++ m :: rest →
      (∀ x ∈ pre, declaredPrefixAt arena x ns = none) →
      ∀ p, declaredPrefixAt arena m ns = some p →
      prefix_by_namespace node ns arena = some p) ∧
    (prefix_by_namespace node ns arena = none ↔
      ∀ m ∈ ancestors arena node, declaredPrefixAt arena m ns = none) ∧
    (∀ pre m rest, ancestors arena node = pre ++ m :: rest →
      (∀ x ∈ pre, declaredNamespaceAt arena x pfx = none) →
      ∀ nsv, declaredNamespaceAt arena m pfx = some nsv →
      namespace_by_prefix_id node pfx arena = some nsv) ∧
    (namespace_by_prefix_id node pfx arena = none ↔
      ∀ m ∈ ancestors arena node, declaredNamespaceAt arena m pfx = none) := by
  refine ⟨?_, ?_, ?_, ?_⟩
  · intro pre m rest hchain hpre p hm
    rw [prefix_by_namespace, hchain, firstDecl_append_none _ _ _ hpre]
    simp only [firstDecl, hm]
  · exact firstDecl_eq_none_iff _ _
  · intro pre m rest hchain hpre nsv hm
    rw [namespace_by_prefix_id, hchain, firstDecl_append_none _ _ _ hpre]
    simp only [firstDecl, hm]
  · exact firstDecl_eq_none_iff _ _

/-- Witness arena for C8: element node 0 declares prefix 1 → namespace
10, its child element node 1 redeclares prefix 1 → namespace 20, and
its other child element node 2 declares nothing. -/
def c8W : Arena :=
  let a := (Arena.empty.newNode (.element ⟨0, ⟨[(10, 1)], [(1, 10)]⟩⟩)).2
  let a := (a.newNode (.element ⟨1, ⟨[(20, 1)], [(1, 20)]⟩⟩)).2
  let a := (a.newNode (.element ⟨2, ⟨[], []⟩⟩)).2
  let a := (append a 0 1).2
  (append a 0 2).2

/-- C8 witness: resolving prefix 1 at the inner element yields the
inner namespace 20, resolving it at the inner element's sibling yields
the outer namespace 10 (shadowing), and an undeclared namespace
resolves to no prefix anywhere on the chain. -/
theorem nearest_declaration_wins_witness :
    namespace_by_prefix_id 1 1 c8W = some 20 ∧
    namespace_by_prefix_id 2 1 c8W = some 10 ∧
    prefix_by_namespace 1 20 c8W = some 1 ∧
    prefix_by_namespace 2 99 c8W = none := by
  refine ⟨?_, ?_, ?_, ?_⟩
  · exact (nearest_declaration_wins c8W 1 20 1).2.2.1 [] 1 [0] (by decide)
      (by decide) 20 (by decide)
  · exact (nearest_declaration_wins c8W 2 10 1).2.2.1 [2] 0 [] (by decide)
      (by decide) 10 (by decide)
  · exact (nearest_declaration_wins c8W 1 20 1).1 [] 1 [0] (by decide)
      (by decide) 1 (by decide)
  · exact (nearest_declaration_wins c8W 2 99 1).2.1.mpr (by decide)

/-! The interning tables and the document store.  The table sources
(`name.rs`, `namespace.rs`, `prefix.rs`) and the `Xot` store glue
(`xotdata.rs`) are not under `src/`; they are modelled from the spec
where noted. -/

/-- Index of the first occurrence of a key in a table. -/
def lookupIdx {α : Type} [DecidableEq α] : List α → α → Option Nat
  | [], _ => none
  | x :: xs, k => if x = k then some 0 else (lookupIdx xs k).map (· + 1)

/-- Modelled from the spec: `get_or_create` of an interning table
(§4.3, table sources not under `src/`): return the existing id when the
key was seen before, otherwise allocate the next id and store the key. -/
def get_id_mut {α : Type} [DecidableEq α] (l : List α) (k : α) : Nat × List α :=
  match lookupIdx l k with
  | some i => (i, l)
  | none => (l.length, l ++ [k])

/-- The document store (`XmlData` / `Xot`): the arena plus the three
interning tables and the two pre-interned sentinel ids. -/
structure XotStore where
  arena : Arena
  namespace_lookup : List String
  prefix_lookup : List String
  name_lookup : List (String × NamespaceId)
  no_namespace_id : NamespaceId
  empty_prefix_id : PrefixId

/-- `XmlData::new`: empty arena, tables pre-interned with the empty
namespace and the empty prefix. -/
def XotStore.new : XotStore :=
  { arena := Arena.empty, namespace_lookup := [""], prefix_lookup := [""],
    name_lookup := [], no_namespace_id := 0, empty_prefix_id := 0 }

/-- Modelled from the spec: `Xot::add_namespace` (`xotdata.rs` not
under `src/`): intern a namespace string. -/
def add_namespace (x : XotStore) (ns : String) : NamespaceId × XotStore :=
  let (i, l) := get_id_mut x.namespace_lookup ns
  (i, { x with namespace_lookup := l })

/-- Modelled from the spec: `Xot::add_name_ns` (`xotdata.rs` not under
`src/`, mirrored by `XmlData::name_ns_mut`): intern the pair of a local
name and a namespace id. -/
def add_name_ns (x : XotStore) (local_name : String) (namespace_id : NamespaceId) :
    NameId × XotStore :=
  let (i, l) := get_id_mut x.name_lookup (local_name, namespace_id)
  (i, { x with name_lookup := l })

/-- The namespace id recorded for an interned name
(`Xot::namespace_for_name`; out-of-range ids are undefined in the
source, totalized to the no-namespace sentinel). -/
def namespace_for_name (x : XotStore) (name_id : NameId) : NamespaceId :=
  ((x.name_lookup.get? name_id).map (·.2)).getD x.no_namespace_id

/-- Modelled from the spec: `Xot::prefix_for_namespace` (`xotdata.rs`
not under `src/`): §4.5 requires the no-namespace sentinel to resolve
to the empty prefix without an ancestor lookup; every other namespace
is resolved by the ancestor walk of `document.rs`. -/
def prefix_for_namespace (x : XotStore) (node : NodeId)
    (namespace_id : NamespaceId) : Option PrefixId :=
  if namespace_id = x.no_namespace_id then some x.empty_prefix_id
  else prefix_by_namespace node namespace_id x.arena

/-- `xmlname/reference.rs::prefix_id` over the node lookup context:
resolve the name's namespace to a prefix, or report a missing-prefix
error. -/
def prefix_id (x : XotStore) (node : NodeId) (name_id : NameId) :
    Except Error PrefixId :=
  match prefix_for_namespace x node (namespace_for_name x name_id) with
  | some p => .ok p
  | none => .error (.missingPrefix (namespace_for_name x name_id))

/-- `Xot::prefix_str` (totalized with the empty string). -/
def prefix_str (x : XotStore) (p : PrefixId) : String :=
  (x.prefix_lookup.get? p).getD ""

/-- `Xot::local_name_str` (totalized with the empty string). -/
def local_name_str (x : XotStore) (name_id : NameId) : String :=
  ((x.name_lookup.get? name_id).map (·.1)).getD ""

/-- `xmlname/reference.rs::prefix` (named `prefixOf` here): the prefix
string for the name in context. -/
def prefixOf (x : XotStore) (node : NodeId) (name_id : NameId) :
    Except Error String :=
  match prefix_id x node name_id with
  | .ok p => .ok (prefix_str x p)
  | .error e => .error e

/-- `xmlname/reference.rs::fullname`: prefix and local name joined by a
colon when the prefix is nonempty. -/
def fullname (x : XotStore) (node : NodeId) (name_id : NameId) :
    Except Error String :=
  match prefixOf x node name_id with
  | .ok p =>
    if p ≠ "" then .ok (p ++ ":" ++ local_name_str x name_id)
    else .ok (local_name_str x name_id)
  | .error e => .error e

/-- C4.  The contextual accessor's prefix lookup: a name in the
distinguished no-namespace always resolves to the empty prefix with no
ancestor lookup; otherwise `prefix_id` (and hence `prefix` and
`fullname`) fails — with a missing-prefix error — exactly when no
element on the ancestor chain of the context node declares a prefix for
the name's namespace. -/
theorem prefix_fails_iff_no_declaration (x : XotStore) (node : NodeId)
    (name_id : NameId) :
    (namespace_for_name x name_id = x.no_namespace_id →
      prefix_id x node name_id = .ok x.empty_prefix_id ∧
      prefixOf x node name_id = .ok (prefix_str x x.empty_prefix_id)) ∧
    (namespace_for_name x name_id ≠ x.no_namespace_id →
      (prefix_id x node name_id
          = .error (.missingPrefix (namespace_for_name x name_id)) ↔
        ∀ m ∈ ancestors x.arena node,
          declaredPrefixAt x.arena m (namespace_for_name x name_id) = none)) ∧
    (∀ e, fullname x node name_id = .error e ↔
      prefix_id x node name_id = .error e) := by
  refine ⟨?_, ?_, ?_⟩
  · intro h
    have h1 : prefix_id x node name_id = .ok x.empty_prefix_id := by
      rw [prefix_id]
      simp only [prefix_for_namespace, if_pos h]
    exact ⟨h1, by rw [prefixOf, h1]⟩
  · intro h
    rw [prefix_id]
    simp only [prefix_for_namespace, if_neg h]
    rw [← firstDecl_eq_none_iff
      (fun anc => declaredPrefixAt x.arena anc (namespace_for_name x name_id))
      (ancestors x.arena node)]
    rw [show firstDecl
      (fun anc => declaredPrefixAt x.arena anc (namespace_for_name x name_id))
      (ancestors x.arena node)
      = prefix_by_namespace node (namespace_for_name x name_id) x.arena from rfl]
    cases hres : prefix_by_namespace node (namespace_for_name x name_id) x.arena with
    | none => simp
    | some p => simp
  · intro e
    cases hres : prefix_id x node name_id with
    | error e' =>
      have hpo : prefixOf x node name_id = .error e' := by
        simp only [prefixOf, hres]
      have hfn : fullname x node name_id = .error e' := by
        simp only [fullname, hpo]
      rw [hfn]
      constructor
      · intro h
        injection h with h'
        rw [h']
      · intro h
        injection h with h'
        rw [h']
    | ok p =>
      have hpo : prefixOf x node name_id = .ok (prefix_str x p) := by
        simp only [prefixOf, hres]
      have hfn : ∃ s, fullname x node name_id = .ok s := by
        simp only [fullname, hpo]
        by_cases hp : prefix_str x p ≠ ""
        · exact ⟨_, by rw [if_pos hp]⟩
        · exact ⟨_, by rw [if_neg hp]⟩
      obtain ⟨s, hs⟩ := hfn
      rw [hs]
      constructor
      · intro hcontr
        cases hcontr
      · intro hcontr
        cases hcontr

/-- Witness store for C4: a store with one interned namespace
"http://n" (id 1) and two interned names — name 0 ("a" in no
namespace) and name 1 ("b" in namespace 1) — over an empty arena, where
nothing declares any prefix. -/
def c4W : XotStore :=
  let x := XotStore.new
  let (_, x) := add_name_ns x "a" x.no_namespace_id
  let (nsid, x) := add_namespace x "http://n"
  let (_, x) := add_name_ns x "b" nsid
  x

/-- C4 witness: the no-namespace name resolves to the empty prefix with
no lookup, and the namespaced name fails with a missing-prefix error in
a context with no declarations, as does `fullname`. -/
theorem prefix_fails_iff_no_declaration_witness :
    prefix_id c4W 0 0 = .ok c4W.empty_prefix_id ∧
    prefix_id c4W 0 1 = .error (.missingPrefix (namespace_for_name c4W 1)) ∧
    fullname c4W 0 1 = .error (.missingPrefix (namespace_for_name c4W 1)) := by
  have h0 := (prefix_fails_iff_no_declaration c4W 0 0).1 (by decide)
  have h1 := ((prefix_fails_iff_no_declaration c4W 0 1).2.1 (by decide)).mpr
    (by decide)
  exact ⟨h0.1, h1,
    ((prefix_fails_iff_no_declaration c4W 0 1).2.2
      (.missingPrefix (namespace_for_name c4W 1))).mpr h1⟩

/-- Helper: a successful table lookup is unaffected by entries added
later. -/
theorem lookupIdx_append_of_some {α : Type} [DecidableEq α]
    (l ext : List α) (k : α) (i : Nat) (h : lookupIdx l k = some i) :
    lookupIdx (l ++ ext) k = some i := by
  induction l generalizing i with
  | nil => cases h
  | cons x xs ih =>
    rw [List.cons_append]
    show (if x = k then some 0 else (lookupIdx (xs ++ ext) k).map (· + 1))
      = some i
    revert h
    show (if x = k then some 0 else (lookupIdx xs k).map (· + 1)) = some i → _
    by_cases hx : x = k
    · simp [hx]
    · simp only [if_neg hx]
      intro h
      rcases hmap : lookupIdx xs k with _ | j
      · rw [hmap] at h
        cases h
      · rw [hmap] at h
        rw [ih j hmap]
        exact h

/-- Helper: a key freshly appended to a table is found at the old table
length. -/
theorem lookupIdx_append_self {α : Type} [DecidableEq α] (l : List α) (k : α)
    (h : lookupIdx l k = none) : lookupIdx (l ++ [k]) k = some l.length := by
  induction l with
  | nil => simp [lookupIdx]
  | cons x xs ih =>
    rw [List.cons_append]
    show (if x = k then some 0 else (lookupIdx (xs ++ [k]) k).map (· + 1))
      = some (xs.length + 1)
    revert h
    show (if x = k then some 0 else (lookupIdx xs k).map (· + 1)) = none → _
    by_cases hx : x = k
    · simp [hx]
    · simp only [if_neg hx]
      intro h
      have hxs : lookupIdx xs k = none := by
        rcases hmap : lookupIdx xs k with _ | j
        · rfl
        · rw [hmap] at h
          cases h
      rw [ih hxs]
      rfl

/-- Helper: when the key is already present, `get_or_create` returns
the stored id and leaves the table alone. -/
theorem get_id_mut_of_found {α : Type} [DecidableEq α] (l : List α) (k : α)
    (i : Nat) (h : lookupIdx l k = some i) : get_id_mut l k = (i, l) := by
  simp only [get_id_mut, h]

/-- Helper: after `get_or_create`, the key is stored under the returned
id. -/
theorem get_id_mut_found {α : Type} [DecidableEq α] (l : List α) (k : α) :
    lookupIdx (get_id_mut l k).2 k = some (get_id_mut l k).1 := by
  cases h : lookupIdx l k with
  | none =>
    simp only [get_id_mut, h]
    exact lookupIdx_append_self l k h
  | some i =>
    simp only [get_id_mut, h]

/-- `XmlNameRef::from_name_ns`'s interning path: intern the namespace
string, then the (local name, namespace id) pair. -/
def internNameNs (x : XotStore) (local_name ns : String) : NameId × XotStore :=
  let (namespace_id, x1) := add_namespace x ns
  add_name_ns x1 local_name namespace_id

/-- The contextual name view (`XmlNameRef`): a name id together with
the resolution context it was built through.  Only `name_id` takes part
in equality and hashing. -/
structure XmlNameRef where
  context_node : Option NodeId
  name_id : NameId

/-- The `PartialEq` implementation of `XmlNameRef`: equality of the
underlying name ids only. -/
def XmlNameRef.beq (r1 r2 : XmlNameRef) : Bool := r1.name_id == r2.name_id

/-- The `Hash` implementation of `XmlNameRef`: the hasher receives only
the name id. -/
def XmlNameRef.hashVal (r : XmlNameRef) : NameId := r.name_id

/-- C9.  Interning the same local-name string and namespace string a
second time — from the state after the first interning, even after any
other interning happened in between (tables only ever grow) — yields
the same `NameId`; and two contextual name views are equal, and hash
identically, exactly when their underlying name ids are equal,
irrespective of their contexts. -/
theorem same_strings_same_name_id (x : XotStore) (local_name ns : String)
    (e1 : List String) (e2 : List (String × NamespaceId)) (y : XotStore)
    (hns : y.namespace_lookup
      = (internNameNs x local_name ns).2.namespace_lookup ++ e1)
    (hnm : y.name_lookup = (internNameNs x local_name ns).2.name_lookup ++ e2)
    (r1 r2 : XmlNameRef) :
    (internNameNs y local_name ns).1 = (internNameNs x local_name ns).1 ∧
    (XmlNameRef.beq r1 r2 = true ↔ r1.name_id = r2.name_id) ∧
    (XmlNameRef.hashVal r1 = XmlNameRef.hashVal r2 ↔
      r1.name_id = r2.name_id) := by
  refine ⟨?_, ?_, ?_⟩
  · have h1 : lookupIdx y.namespace_lookup ns
        = some (get_id_mut x.namespace_lookup ns).1 := by
      rw [hns]
      exact lookupIdx_append_of_some _ e1 ns _
        (get_id_mut_found x.namespace_lookup ns)
    have h2 : get_id_mut y.namespace_lookup ns
        = ((get_id_mut x.namespace_lookup ns).1, y.namespace_lookup) :=
      get_id_mut_of_found _ _ _ h1
    have h3 : lookupIdx y.name_lookup
        (local_name, (get_id_mut x.namespace_lookup ns).1)
        = some (internNameNs x local_name ns).1 := by
      rw [hnm]
      exact lookupIdx_append_of_some _ e2 _ _
        (get_id_mut_found x.name_lookup
          (local_name, (get_id_mut x.namespace_lookup ns).1))
    have hy1 : (add_namespace y ns).1 = (get_id_mut x.namespace_lookup ns).1 := by
      show (get_id_mut y.namespace_lookup ns).1 = _
      rw [h2]
    have hy2 : (add_namespace y ns).2.name_lookup = y.name_lookup := rfl
    show (get_id_mut (add_namespace y ns).2.name_lookup
      (local_name, (add_namespace y ns).1)).1 = (internNameNs x local_name ns).1
    rw [hy2, hy1, get_id_mut_of_found _ _ _ h3]
  · simp [XmlNameRef.beq]
  · simp [XmlNameRef.hashVal]

/-- C9 witness: interning ("a", "http://n") twice in a row yields the
same name id, and two views over the same name id but different
contexts are equal and hash identically. -/
theorem same_strings_same_name_id_witness :
    (internNameNs (internNameNs XotStore.new "a" "http://n").2 "a" "http://n").1
      = (internNameNs XotStore.new "a" "http://n").1 ∧
    XmlNameRef.beq ⟨some 0, 5⟩ ⟨none, 5⟩ = true ∧
    XmlNameRef.hashVal ⟨some 0, 5⟩ = XmlNameRef.hashVal ⟨none, 5⟩ := by
  have h := same_strings_same_name_id XotStore.new "a" "http://n" [] []
    (internNameNs XotStore.new "a" "http://n").2 (by simp) (by simp)
    ⟨some 0, 5⟩ ⟨none, 5⟩
  exact ⟨h.1, h.2.1.mpr rfl, h.2.2.mpr rfl⟩

end Xot

